import Mathlib

/-!
Verification of the tmux-bridge (`tb`) command-line tool, a Rust program
(src/main.rs) that injects shell commands into tmux sessions and decodes
their output and exit status from captured pane text.

Rust strings are embedded as `List Char`; numeric types use `Nat`/`Int`
with explicit bounds where the source's machine integers matter.
Fallible operations return `Option`/`Except`.  Each definition carries a
comment naming the source function it embeds.
-/

/-- Character list of a string literal (Rust `&str` contents). -/
def str (s : String) : List Char := s.data

/-- Decimal rendering of a natural number, as Rust `format!("{}", n)` prints a `usize`. -/
def natChars (n : Nat) : List Char := (Nat.repr n).data

/-- Embedding of Rust `str::lines` (used via `content.lines()` throughout
src/main.rs): split at `'\n'`; a terminated line also drops one trailing
`'\r'`; a final unterminated empty piece yields no line.  `accRev` holds the
current line's characters in reverse. -/
def rustLinesGo (accRev : List Char) : List Char → List (List Char)
  | [] => if accRev.isEmpty then [] else [accRev.reverse]
  | c :: rest =>
    if c = '\n' then
      (match accRev with
       | '\r' :: a => a.reverse
       | a => a.reverse) :: rustLinesGo [] rest
    else rustLinesGo (c :: accRev) rest

/-- Rust `str::lines` over a whole string. -/
def rustLines (s : List Char) : List (List Char) := rustLinesGo [] s

/-- Embedding of Rust `str::replace` with a one-character pattern (the only
form src/main.rs uses): every occurrence of `p` becomes `rep`. -/
def replaceChar (p : Char) (rep : List Char) : List Char → List Char
  | [] => []
  | c :: s => (if c = p then rep else [c]) ++ replaceChar p rep s

/-- Embedding of Rust `str::find(pat)` (src/main.rs line 395): index of the
first occurrence of `pat` in `s`, at character granularity. -/
def strFindSub (s pat : List Char) : Option Nat :=
  (List.range (s.length + 1)).find? (fun i => pat.isPrefixOf (s.drop i))

/-- Embedding of Rust `str::parse::<i32>` (src/main.rs line 396): optional
sign, at least one ASCII digit, value within the `i32` range. -/
def parseI32 (s : List Char) : Option Int :=
  let signDigits : Int × List Char :=
    match s with
    | '-' :: rest => (-1, rest)
    | '+' :: rest => (1, rest)
    | _ => (1, s)
  let sign := signDigits.1
  let digits := signDigits.2
  if digits = [] then none
  else if digits.all (fun c => c.isDigit) then
    let mag : Nat := digits.foldl (fun acc c => acc * 10 + (c.toNat - 48)) 0
    let v : Int := sign * (mag : Int)
    if -2147483648 ≤ v ∧ v ≤ 2147483647 then some v else none
  else none

/-- Embedding of Rust `str::split_once(c)` (src/main.rs line 753): split at
the first occurrence of `c`, which is dropped. -/
def split_once (s : List Char) (c : Char) : Option (List Char × List Char) :=
  match List.findIdx? (fun x => x = c) s with
  | some i => some (s.take i, s.drop (i + 1))
  | none => none

/-- Embedding of `session_prefix` (src/main.rs lines 14-20).  The Rust
function calls `std::env::var("TB_TEST_MODE")` at every invocation, so the
embedding takes the value of that variable at the moment of the call
(`none` = unset, `some v` = set to `v`). -/
def session_prefix (tb_test_mode : Option (List Char)) : List Char :=
  if tb_test_mode.isSome then str "tbtest-" else str "tb-"

/-- Embedding of `tmux_session_name` (src/main.rs lines 23-25):
`format!("{}{}", session_prefix(), session_id)`, with the environment
sampled by the inner `session_prefix()` call. -/
def tmux_session_name (tb_test_mode : Option (List Char)) (session_id : List Char) : List Char :=
  session_prefix tb_test_mode ++ session_id

/-- Session names derived at successive points of one process run, where
`envs` lists the value of `TB_TEST_MODE` observed by each successive
`tmux_session_name` call (the source re-reads the environment per call). -/
def derivationsInRun (envs : List (Option (List Char))) (session_id : List Char) : List (List Char) :=
  envs.map (fun e => tmux_session_name e session_id)

/-- Error message of `resolve_session` (src/main.rs line 354). -/
def errNoSession : List Char :=
  str "No session specified.\n\nSet TB_SESSION environment variable, or use --session ID.\nAsk the user which tmux-bridge session to use."

/-- Embedding of `resolve_session` (src/main.rs lines 343-355): an explicit
`--session` value is returned as-is; otherwise a present non-empty
`TB_SESSION` value; otherwise the no-session error. -/
def resolve_session (session : Option (List Char)) (tb_session : Option (List Char)) :
    Except (List Char) (List Char) :=
  match session with
  | some s => .ok s
  | none =>
    match tb_session with
    | some s => if s.isEmpty then .error errNoSession else .ok s
    | none => .error errNoSession

/-- Error message of `cmd_launch` at capacity (src/main.rs lines 484-487). -/
def errTooMany : List Char :=
  str "Error: too many background tasks (max 6).\n\nClose a task with: tb done <task>"

/-- Embedding of `count_task_panes` (src/main.rs lines 579-591).  The
argument models the result of `tmux list-panes`: `none` when the spawn
failed or the command returned non-success, `some lines` (one line per
pane) on success.  `Nat` subtraction is saturating, as the source's
`saturating_sub(1)`. -/
def count_task_panes (list_panes : Option (List (List Char))) : Nat :=
  match list_panes with
  | some lines => lines.length - 1
  | none => 0

/-- Embedding of the task-id decision of `cmd_launch` (src/main.rs lines
479-490): derive the task count, fail at capacity 6 before any split,
otherwise issue `t{count+1}`. -/
def cmd_launch_model (list_panes : Option (List (List Char))) : Except (List Char) (List Char) :=
  let task_count := count_task_panes list_panes
  if 6 ≤ task_count then .error errTooMany
  else .ok (str "t" ++ natChars (task_count + 1))

/-- One `tb launch` against a live session with `panes` panes, paired with
the resulting pane count: the capacity check precedes the `split-window`
call (src/main.rs lines 483-488), so a failed launch leaves the session's
panes unchanged, while a successful one adds the split pane. -/
def launch_step (panes : Nat) : Except (List Char) (List Char) × Nat :=
  match cmd_launch_model (some (List.replicate panes [])) with
  | .error e => (.error e, panes)
  | .ok tid => (.ok tid, panes + 1)

/-- Effect of `tb done` on the live pane count: `kill-pane`
(src/main.rs lines 718-721) removes the task's pane. -/
def done_step (panes : Nat) : Nat := panes - 1

/-- Results and final pane count of `n` consecutive `tb launch` calls. -/
def launch_seq : Nat → Nat → List (Except (List Char) (List Char)) × Nat
  | 0, p => ([], p)
  | n + 1, p =>
    let r := launch_step p
    let rest := launch_seq n r.2
    (r.1 :: rest.1, rest.2)

/-- Outcome classes of one `tb run` invocation: the end sentinel was found
carrying `code` (src/main.rs lines 314-324), one of the two timeouts fired
(lines 292-296 and 334-338), or a protocol/setup failure made `cmd_run`
return `Err` (no session, session not found, tmux spawn or command
failure), which `main` reports (lines 135-138). -/
inductive RunOutcome where
  | completed (code : Int)
  | timedOutIdle
  | timedOutTotal
  | setupFailure (msg : List Char)

/-- Process exit code of `tb run` for each outcome: `completed code` ends in
`std::process::exit(code)` for nonzero `code` and in `Ok(())` (hence exit
0) for zero (src/main.rs lines 321-324), both timeouts in
`std::process::exit(124)` (lines 295, 337), and every `Err` in `main`'s
`std::process::exit(1)` (line 137). -/
def runExitCode : RunOutcome → Int
  | .completed code => code
  | .timedOutIdle => 124
  | .timedOutTotal => 124
  | .setupFailure _ => 1

/-- Class of an outcome, following the spec's three classes: 0 = the target
command's own exit code was recovered, 1 = a timeout fired, 2 = the tool
itself failed during protocol/setup. -/
def outcomeClass : RunOutcome → Nat
  | .completed _ => 0
  | .timedOutIdle => 1
  | .timedOutTotal => 1
  | .setupFailure _ => 2

/-- Start sentinel of the marker protocol (src/main.rs line 265). -/
def start_marker (marker_id : List Char) : List Char :=
  str "___START_" ++ marker_id ++ str "___"

/-- End-sentinel line start of the marker protocol (src/main.rs line 266). -/
def end_marker_pre (marker_id : List Char) : List Char :=
  str "___END_" ++ marker_id ++ str "_"

/-- Loop of `find_exit_code` (src/main.rs lines 391-403) over the captured
lines: the first line starting with the end-sentinel text whose portion up
to the next `___` parses as an `i32` yields that integer; a line that
starts with the sentinel text but has no parsable suffix is skipped, not an
error. -/
def find_exit_code_go (emp : List Char) : List (List Char) → Option Int
  | [] => none
  | l :: ls =>
    if emp.isPrefixOf l then
      let rest := l.drop emp.length
      match strFindSub rest (str "___") with
      | some e =>
        match parseI32 (rest.take e) with
        | some code => some code
        | none => find_exit_code_go emp ls
      | none => find_exit_code_go emp ls
    else find_exit_code_go emp ls

/-- Embedding of `find_exit_code` (src/main.rs lines 391-403). -/
def find_exit_code (content emp : List Char) : Option Int :=
  find_exit_code_go emp (rustLines content)

/-- Stated from the spec's words, for comparison with `find_exit_code`: a
line qualifies as the end sentinel when it starts with the exact
`___END_{token}_` text and the portion between that text and the next
`___` parses as an integer, in which case this is that integer. -/
def spec_end_sentinel_code (emp l : List Char) : Option Int :=
  if emp.isPrefixOf l then
    match strFindSub (l.drop emp.length) (str "___") with
    | some e => parseI32 ((l.drop emp.length).take e)
    | none => none
  else none

/-- Error message of `find_task_pane` (src/main.rs lines 760-763). -/
def errTaskNotFound (task : List Char) : List Char :=
  str "Task " ++ task ++ str " not found.\n\nLaunch a task with: tb launch -- <command>"

/-- Loop of `find_task_pane` (src/main.rs lines 752-763) over the lines of
`list-panes -F "#{pane_id}:#{@tb_task}"`: the first line that splits at a
colon with its tag part equal to `task` yields its pane-id part. -/
def find_task_pane_go (task : List Char) : List (List Char) → Except (List Char) (List Char)
  | [] => .error (errTaskNotFound task)
  | l :: ls =>
    match split_once l ':' with
    | some pt => if pt.2 = task then .ok pt.1 else find_task_pane_go task ls
    | none => find_task_pane_go task ls

/-- Embedding of `find_task_pane` (src/main.rs lines 733-764), taking the
raw stdout of the `list-panes` query. -/
def find_task_pane (stdout task : List Char) : Except (List Char) (List Char) :=
  find_task_pane_go task (rustLines stdout)

/-- Embedding of the loop of `extract_output` (src/main.rs lines 411-420):
scan the lines once; the first line starting with the start marker sets the
start index to the following line; the first line starting with the
end-sentinel text sets the end index and stops the scan (the start check of
that same line runs first, as in the source). -/
def findMarkers (sm emp : List Char) : List (List Char) → Nat → Option Nat → Option Nat × Option Nat
  | [], _, sIdx => (sIdx, none)
  | l :: ls, i, sIdx =>
    let sIdx' := if sIdx.isNone ∧ sm.isPrefixOf l then some (i + 1) else sIdx
    if emp.isPrefixOf l then (sIdx', some i)
    else findMarkers sm emp ls (i + 1) sIdx'

/-- Embedding of `extract_output` (src/main.rs lines 406-426): the lines of
the slice between the two indices joined with newlines when both were found
in order, the empty string otherwise. -/
def extract_output (content sm emp : List Char) : List Char :=
  let lines := rustLines content
  match findMarkers sm emp lines 0 none with
  | (some s, some e) =>
    if s < e then List.intercalate ['\n'] ((lines.drop s).take (e - s)) else []
  | _ => []

/-- Number of lines the `extract_output` loop examines: through the first
line starting with the end-sentinel text, or all of them. -/
def firstEndBound (emp : List Char) (lines : List (List Char)) : Nat :=
  match List.findIdx? (fun l => emp.isPrefixOf l) lines with
  | some e => e + 1
  | none => lines.length

/-- Embedding of `print_output` (src/main.rs lines 429-450) as the text it
writes to stdout: the output plus the final `println!` newline when no
truncation is needed, otherwise the first `first` lines, the elision
notice, and the last `last` lines, each line newline-terminated. -/
def print_output (output : List Char) (first last : Nat) : List Char :=
  let lines := rustLines output
  let total := lines.length
  if total ≤ first + last then output ++ ['\n']
  else
    (lines.take first).flatMap (fun l => l ++ ['\n'])
      ++ str "\n... (" ++ natChars (total - first - last) ++ str " lines truncated) ...\n\n"
      ++ (lines.drop (total - last)).flatMap (fun l => l ++ ['\n'])

/-- Completion branch of `cmd_run`'s poll loop (src/main.rs lines 314-325)
for one captured pane text: when the end sentinel is found, the displayed
text (extracted, then truncated for display) paired with the decoded exit
code; `none` while the sentinel is absent. -/
def run_step (content sm emp : List Char) (first last : Nat) : Option (List Char × Int) :=
  match find_exit_code content emp with
  | some code => some (print_output (extract_output content sm emp) first last, code)
  | none => none

/-- Backtick character, written by code point. -/
def btickChar : Char := Char.ofNat 96

/-- Single-quote character, written by code point. -/
def sqc : Char := Char.ofNat 39

/-- Escaping chain of `double_quote_escape` (src/main.rs lines 381-386):
escape backslash, dollar, backtick, double quote and bang, in that order. -/
def dq_escape_body (s : List Char) : List Char :=
  replaceChar '!' (str "\\!")
    (replaceChar '"' (str "\\\"")
      (replaceChar btickChar (str "\\`")
        (replaceChar '$' (str "\\$")
          (replaceChar '\\' (str "\\\\") s))))

/-- Embedding of `double_quote_escape` (src/main.rs lines 379-388): the
escaping chain, wrapped in double quotes. -/
def double_quote_escape (s : List Char) : List Char :=
  '"' :: dq_escape_body s ++ ['"']

/-- The `cmd_str` of `build_shell_command` (src/main.rs lines 361-362):
each argument double-quote escaped, joined with single spaces. -/
def cmd_str (command : List (List Char)) : List Char :=
  List.intercalate (str " ") (command.map double_quote_escape)

/-- The `inner_script` of `build_shell_command` (src/main.rs lines
366-369): echo the start sentinel, run the quoted command, echo the end
sentinel carrying `$?`. -/
def inner_script (command : List (List Char)) (marker_id : List Char) : List Char :=
  str "echo " ++ [sqc] ++ str "___START_" ++ marker_id ++ str "___" ++ [sqc] ++ str "; "
    ++ cmd_str command ++ str "; echo \"___END_" ++ marker_id ++ str "_$?___\""

/-- The `escaped_script` of `build_shell_command` (src/main.rs line 373):
every single quote becomes quote, backslash, quote, quote. -/
def squote_escaped (s : List Char) : List Char :=
  replaceChar sqc [sqc, '\\', sqc, sqc] s

/-- Embedding of `build_shell_command` (src/main.rs lines 358-376): the
escaped inner script wrapped in `sh -c '...'`-style single quotes. -/
def build_shell_command (command : List (List Char)) (marker_id : List Char) : List Char :=
  str "sh -c " ++ [sqc] ++ squote_escaped (inner_script command marker_id) ++ [sqc]

/-- Modes of the POSIX shell word scanner: outside quotes, after an
unquoted backslash, inside single quotes, inside double quotes, after a
backslash inside double quotes, after a dollar inside double quotes. -/
inductive ShMode where
  | norm
  | esc
  | squote
  | dquote
  | dqesc
  | dqdollar

/-- Close the word being accumulated (characters held in reverse), if one
has started. -/
def flushWord (wrev : List Char) (ws : Bool) (cws : List (List Char)) : List (List Char) :=
  if ws then wrev.reverse :: cws else cws

/-- Characters that are special to a POSIX shell outside quotes (operators,
expansion and globbing triggers, comment start, history expansion in an
interactive shell); the model refuses inputs that would reach one
unquoted, since their effects are outside its scope. -/
def shSpecialNorm (c : Char) : Bool :=
  c == '$' || c == btickChar || c == '|' || c == '&' || c == '<' || c == '>'
    || c == '(' || c == ')' || c == '*' || c == '?' || c == '[' || c == '~'
    || c == '!' || c == '#' || c == '\n'

/-- Modelled from the POSIX shell command-language specification (token
recognition, quoting and quote removal, 2.2; the shell itself is external
to the repository): scan one line into a sequence of simple commands, each
a list of words.  Single quotes make everything literal; double quotes
make everything literal except backslash before dollar, backtick, double
quote or backslash, and the expansion `$?` (a dollar followed by anything
else is refused), which is replaced by `qm` (the current exit status); an
unquoted backslash escapes the next character;
unquoted space and tab separate words, `;` separates commands.  Unmodelled
constructs (live expansions, operators, globs, an empty command before
`;`, an unterminated quote) yield `none`.  Word characters are
accumulated in reverse in `wrev` (`ws` = a word has begun), words of the
current command in reverse in `cws`, finished commands in reverse in
`cmds`. -/
def shellParse (qm : List Char) :
    ShMode → List Char → Bool → List (List Char) → List (List (List Char)) → List Char →
      Option (List (List (List Char)))
  | .norm, wrev, ws, cws, cmds, [] =>
    some ((if (flushWord wrev ws cws).isEmpty then cmds
           else (flushWord wrev ws cws).reverse :: cmds).reverse)
  | .esc, _, _, _, _, [] => none
  | .squote, _, _, _, _, [] => none
  | .dquote, _, _, _, _, [] => none
  | .dqesc, _, _, _, _, [] => none
  | .dqdollar, _, _, _, _, [] => none
  | .norm, wrev, ws, cws, cmds, c :: rest =>
    if c = ' ' ∨ c = '\t' then shellParse qm .norm [] false (flushWord wrev ws cws) cmds rest
    else if c = ';' then
      if (flushWord wrev ws cws).isEmpty then none
      else shellParse qm .norm [] false [] ((flushWord wrev ws cws).reverse :: cmds) rest
    else if c = sqc then shellParse qm .squote wrev true cws cmds rest
    else if c = '"' then shellParse qm .dquote wrev true cws cmds rest
    else if c = '\\' then shellParse qm .esc wrev ws cws cmds rest
    else if shSpecialNorm c then none
    else shellParse qm .norm (c :: wrev) true cws cmds rest
  | .esc, wrev, ws, cws, cmds, c :: rest =>
    if c = '\n' then shellParse qm .norm wrev ws cws cmds rest
    else shellParse qm .norm (c :: wrev) true cws cmds rest
  | .squote, wrev, ws, cws, cmds, c :: rest =>
    if c = sqc then shellParse qm .norm wrev ws cws cmds rest
    else shellParse qm .squote (c :: wrev) ws cws cmds rest
  | .dquote, wrev, ws, cws, cmds, c :: rest =>
    if c = '"' then shellParse qm .norm wrev ws cws cmds rest
    else if c = '\\' then shellParse qm .dqesc wrev ws cws cmds rest
    else if c = '$' then shellParse qm .dqdollar wrev ws cws cmds rest
    else if c = btickChar then none
    else shellParse qm .dquote (c :: wrev) ws cws cmds rest
  | .dqesc, wrev, ws, cws, cmds, c :: rest =>
    if c = '$' ∨ c = btickChar ∨ c = '"' ∨ c = '\\' then
      shellParse qm .dquote (c :: wrev) ws cws cmds rest
    else if c = '\n' then shellParse qm .dquote wrev ws cws cmds rest
    else shellParse qm .dquote (c :: '\\' :: wrev) ws cws cmds rest
  | .dqdollar, wrev, ws, cws, cmds, c :: rest =>
    if c = '?' then shellParse qm .dquote (qm.reverse ++ wrev) ws cws cmds rest
    else none

/-- Escape block `double_quote_escape` emits for one character. -/
def dqBlock (c : Char) : List Char :=
  if c = '\\' then str "\\\\"
  else if c = '$' then str "\\$"
  else if c = btickChar then str "\\`"
  else if c = '"' then str "\\\""
  else if c = '!' then str "\\!"
  else [c]

/-- C7 counterexample: an empty explicit session id is not treated as an
absent one.  `resolve_session (some "")` returns `Ok("")`: it neither falls
back to a present non-empty `TB_SESSION` value nor fails with the
no-session error when that variable is unset, contrary to the claim. -/
theorem resolve_session_empty_explicit_counterexample :
    resolve_session (some []) (some (str "abc")) = .ok []
      ∧ resolve_session (some []) (some (str "abc")) ≠ .ok (str "abc")
      ∧ resolve_session (some []) none = .ok []
      ∧ resolve_session (some []) none ≠ .error errNoSession := by
  refine ⟨rfl, ?_, rfl, ?_⟩ <;> simp [resolve_session, str]

/-- C7 (amended): session resolution returns the explicit id whenever one is
given, including the empty one; with no explicit id it returns a present
non-empty environment value; and it fails with the no-session error exactly
when the explicit id is absent and the environment value is absent or
empty. -/
theorem resolve_session_spec :
    (∀ s env, resolve_session (some s) env = .ok s)
      ∧ (∀ s, resolve_session none (some s) =
          if s.isEmpty then .error errNoSession else .ok s)
      ∧ resolve_session none none = .error errNoSession := by
  refine ⟨fun s env => rfl, fun s => rfl, rfl⟩

/-- C8 counterexample: the session-name prefix is re-derived from the
environment at every call of `session_prefix`, not selected once per run.
In a run whose two derivations observe different values of `TB_TEST_MODE`
(unset, then set), the two derived names differ, contrary to the claim
that every derivation of a run uses one prefix value even if the variable
changes between operations. -/
theorem session_prefix_reevaluated_counterexample :
    derivationsInRun [none, some []] (str "x") = [str "tb-x", str "tbtest-x"]
      ∧ str "tb-x" ≠ str "tbtest-x" := by
  constructor
  · rfl
  · simp [str]

/-- C8 (amended): each derivation of a full session name applies the prefix
computed from the environment value sampled at that call, and that prefix
depends only on whether `TB_TEST_MODE` is set at that moment; hence all
derivations of a run during which the variable does not change agree. -/
theorem session_prefix_per_call_spec :
    (∀ e session_id, tmux_session_name e session_id =
        (if e.isSome then str "tbtest-" else str "tb-") ++ session_id)
      ∧ (∀ envs session_id, derivationsInRun envs session_id =
          envs.map (fun e => (if e.isSome then str "tbtest-" else str "tb-") ++ session_id)) := by
  constructor
  · intro e session_id
    rfl
  · intro envs session_id
    rfl

/-- C9: the task-pane count is total in the `list-panes` result: a
successful listing of `p` panes yields `p - 1` with saturating subtraction
(so zero panes yield 0), a failed listing yields 0, and a launch whose
listing failed is assigned id `t1`. -/
theorem count_task_panes_total_spec :
    (∀ lines, count_task_panes (some lines) = lines.length - 1)
      ∧ count_task_panes none = 0
      ∧ count_task_panes (some []) = 0
      ∧ cmd_launch_model none = .ok (str "t1") := by
  refine ⟨fun lines => rfl, rfl, rfl, rfl⟩

/-- C1 counterexample: the three exit-code classes of `tb run` collide.  A
target command that itself exits with 124 produces the same process exit
code as the idle timeout, and one that exits with 1 produces the same code
as a protocol/setup failure, although the outcomes are of different
classes — so a single exit-code value can be produced by two different
classes, contrary to the claim. -/
theorem run_exit_code_collision_counterexample :
    runExitCode (RunOutcome.completed 124) = runExitCode RunOutcome.timedOutIdle
      ∧ outcomeClass (RunOutcome.completed 124) ≠ outcomeClass RunOutcome.timedOutIdle
      ∧ runExitCode (RunOutcome.completed 1) = runExitCode (RunOutcome.setupFailure (str "x"))
      ∧ outcomeClass (RunOutcome.completed 1) ≠ outcomeClass (RunOutcome.setupFailure (str "x")) := by
  refine ⟨rfl, by decide, rfl, by decide⟩

/-- C1 (amended): `tb run` exits with the target command's own code when the
end sentinel is found, with the reserved code 124 when either timeout
fires, and with 1 on protocol/setup failure; the timeout and failure
classes never collide with each other, but the passthrough class collides
with them exactly at the values 1 and 124. -/
theorem run_exit_code_spec :
    (∀ code, runExitCode (RunOutcome.completed code) = code)
      ∧ runExitCode RunOutcome.timedOutIdle = 124
      ∧ runExitCode RunOutcome.timedOutTotal = 124
      ∧ (∀ msg, runExitCode (RunOutcome.setupFailure msg) = 1)
      ∧ (∀ v : Int,
          (∃ o o', outcomeClass o ≠ outcomeClass o'
              ∧ runExitCode o = v ∧ runExitCode o' = v)
            ↔ (v = 1 ∨ v = 124)) := by
  refine ⟨fun code => rfl, rfl, rfl, fun msg => rfl, fun v => ?_⟩
  constructor
  · rintro ⟨o, o', hcl, ho, ho'⟩
    cases o <;> cases o' <;> simp [outcomeClass] at hcl <;>
      simp [runExitCode] at ho ho' <;> omega
  · rintro (rfl | rfl)
    · exact ⟨RunOutcome.completed 1, RunOutcome.setupFailure [], by decide, rfl, rfl⟩
    · exact ⟨RunOutcome.completed 124, RunOutcome.timedOutIdle, by decide, rfl, rfl⟩

/-- C5: a session with `p` live panes has task count `p - 1`; a launch at
task count 6 or more fails with the too-many-tasks error and leaves the
pane count unchanged, while below capacity it issues `t{count+1}` and adds
one pane; from an empty session six consecutive launches return `t1`
through `t6` in order, a seventh fails, and after closing one task pane
with `done` the next launch succeeds. -/
theorem launch_capacity_spec :
    (∀ p, count_task_panes (some (List.replicate p [])) = p - 1)
      ∧ (∀ p, launch_step p =
          if 6 ≤ p - 1 then (.error errTooMany, p)
          else (.ok (str "t" ++ natChars (p - 1 + 1)), p + 1))
      ∧ launch_seq 6 1 =
          ([.ok (str "t1"), .ok (str "t2"), .ok (str "t3"),
            .ok (str "t4"), .ok (str "t5"), .ok (str "t6")], 7)
      ∧ (launch_step 7).1 = .error errTooMany
      ∧ (launch_step (done_step 7)).1 = .ok (str "t6") := by
  refine ⟨?_, ?_, rfl, rfl, rfl⟩
  · intro p
    simp [count_task_panes]
  · intro p
    by_cases h : 6 ≤ p - 1 <;>
      simp [launch_step, cmd_launch_model, count_task_panes, h]

theorem find_exit_code_go_eq_findSome? (emp : List Char) (lines : List (List Char)) :
    find_exit_code_go emp lines = lines.findSome? (spec_end_sentinel_code emp) := by
  induction lines with
  | nil => rfl
  | cons l ls ih =>
    rw [List.findSome?_cons]
    by_cases hpre : emp.isPrefixOf l
    · cases hfind : strFindSub (l.drop emp.length) (str "___") with
      | none => simp [find_exit_code_go, spec_end_sentinel_code, hpre, hfind, ih]
      | some e =>
        cases hparse : parseI32 ((l.drop emp.length).take e) with
        | none => simp [find_exit_code_go, spec_end_sentinel_code, hpre, hfind, hparse, ih]
        | some code => simp [find_exit_code_go, spec_end_sentinel_code, hpre, hfind, hparse]
    · simp [find_exit_code_go, spec_end_sentinel_code, hpre, ih]

/-- C3: end-sentinel detection returns exactly the first line's code among
the lines qualifying per the spec (prefix `___END_{token}_`, integer
portion before the next `___`), and returns `some` precisely when some
captured line qualifies; otherwise it reports "not yet complete" (`none`),
never an error. -/
theorem find_exit_code_spec (content token : List Char) :
    find_exit_code content ( end_marker_pre token) =
        (rustLines content).findSome? (spec_end_sentinel_code ( end_marker_pre token))
      ∧ ((find_exit_code content ( end_marker_pre token)).isSome
          ↔ ∃ l ∈ rustLines content, (spec_end_sentinel_code ( end_marker_pre token) l).isSome) := by
  refine ⟨find_exit_code_go_eq_findSome? _ _, ?_⟩
  rw [find_exit_code, find_exit_code_go_eq_findSome?]
  induction rustLines content with
  | nil => simp
  | cons l ls ih =>
    rw [List.findSome?_cons]
    cases h : spec_end_sentinel_code ( end_marker_pre token) l with
    | some c => simp [h]
    | none => simp [h, ih]

theorem find_task_pane_go_eq_findSome? (task : List Char) (lines : List (List Char)) :
    find_task_pane_go task lines =
      match lines.findSome?
          (fun l => match split_once l ':' with
            | some pt => if pt.2 = task then some pt.1 else none
            | none => none) with
      | some pid => .ok pid
      | none => .error (errTaskNotFound task) := by
  induction lines with
  | nil => rfl
  | cons l ls ih =>
    rw [List.findSome?_cons]
    cases hsplit : split_once l ':' with
    | none => simp only [find_task_pane_go, hsplit]; exact ih
    | some pt =>
      by_cases htag : pt.2 = task
      · simp [find_task_pane_go, hsplit, htag]
      · simp only [find_task_pane_go, hsplit, htag, if_false, if_neg htag]
        exact ih

/-- C10: task-pane lookup returns the pane id of the first listed pane
whose tag (the part of the listing line after the first colon) equals the
task id exactly, and fails with the task-not-found error precisely when no
line matches; with duplicate tags, the first listed pane wins, as the
concrete instance shows. -/
theorem find_task_pane_spec (stdout task : List Char) :
    find_task_pane stdout task =
        (match (rustLines stdout).findSome?
            (fun l => match split_once l ':' with
              | some pt => if pt.2 = task then some pt.1 else none
              | none => none) with
        | some pid => .ok pid
        | none => .error (errTaskNotFound task))
      ∧ find_task_pane_go (str "t1") [str "%1:t1", str "%2:t1"] = .ok (str "%1")
      ∧ find_task_pane_go (str "t9") [str "%1:t1"] = .error (errTaskNotFound (str "t9")) := by
  exact ⟨find_task_pane_go_eq_findSome? _ _, rfl, rfl⟩


/-- C6: when the total line count is at most `first + last` the displayed
text is the input verbatim (plus the final newline `println!` emits) with
no elision notice; otherwise it is the first `first` lines, an elision
notice naming exactly `total - first - last` omitted lines, and the last
`last` lines; and the truncation parameters never affect the exit code the
completion branch decodes. -/
theorem print_output_display_spec :
    (∀ output first last,
      print_output output first last =
        if (rustLines output).length ≤ first + last then output ++ ['\n']
        else
          ((rustLines output).take first).flatMap (fun l => l ++ ['\n'])
            ++ str "\n... (" ++ natChars ((rustLines output).length - first - last)
            ++ str " lines truncated) ...\n\n"
            ++ ((rustLines output).reverse.take last).reverse.flatMap (fun l => l ++ ['\n']))
      ∧ (∀ content sm emp first last first' last',
          (run_step content sm emp first last).map Prod.snd
            = (run_step content sm emp first' last').map Prod.snd) := by
  constructor
  · intro output first last
    by_cases h : (rustLines output).length ≤ first + last
    · simp [print_output, h]
    · have hdrop : (rustLines output).drop ((rustLines output).length - last)
          = ((rustLines output).reverse.take last).reverse := by
        have hrev := List.reverse_drop (l := rustLines output)
          (n := (rustLines output).length - last)
        have harith : (rustLines output).length
            - ((rustLines output).length - last) = last := by omega
        rw [harith] at hrev
        rw [← hrev, List.reverse_reverse]
      simp only [print_output, h, if_false, hdrop]
  · intro content sm emp first last first' last'
    cases h : find_exit_code content emp <;> simp [run_step, h]

theorem findIdx?_start_shift {α : Type} (p : α → Bool) (xs : List α) (i : Nat) :
    List.findIdx? p xs i = (List.findIdx? p xs).map (· + i) := by
  induction i with
  | zero => cases h : List.findIdx? p xs <;> simp [h]
  | succ n ih =>
    rw [List.findIdx?_succ, ih]
    cases List.findIdx? p xs with
    | none => simp
    | some k => simp; omega

theorem findIdx?_take {α : Type} (p : α → Bool) (l : List α) (n : Nat) :
    List.findIdx? p (l.take n) =
      match List.findIdx? p l with
      | some k => if k < n then some k else none
      | none => none := by
  induction l generalizing n with
  | nil => simp
  | cons x xs ih =>
    cases n with
    | zero => cases h : List.findIdx? p (x :: xs) <;> simp [h]
    | succ m =>
      rw [List.take_succ_cons, List.findIdx?_cons, List.findIdx?_cons]
      by_cases hx : p x
      · simp [hx]
      · simp only [hx, if_false]
        rw [List.findIdx?_succ, List.findIdx?_succ, ih]
        cases h : List.findIdx? p xs with
        | none => simp
        | some k =>
          by_cases hk : k < m
          · simp [hk, show k + 1 < m + 1 by omega]
          · simp [hk, show ¬ (k + 1 < m + 1) by omega]

theorem findMarkers_snd (sm emp : List Char) (ls : List (List Char)) (i : Nat) (s : Option Nat) :
    (findMarkers sm emp ls i s).2
      = (List.findIdx? (fun l => emp.isPrefixOf l) ls).map (· + i) := by
  induction ls generalizing i s with
  | nil => simp [findMarkers]
  | cons l ls ih =>
    rw [List.findIdx?_cons]
    by_cases he : emp.isPrefixOf l
    · simp [findMarkers, he]
    · simp only [findMarkers, he, if_false, Bool.false_eq_true]
      rw [ih, List.findIdx?_succ]
      cases List.findIdx? (fun l => emp.isPrefixOf l) ls with
      | none => simp
      | some k => simp; omega

theorem findMarkers_fst_some (sm emp : List Char) (ls : List (List Char)) (i v : Nat) :
    (findMarkers sm emp ls i (some v)).1 = some v := by
  induction ls generalizing i with
  | nil => simp [findMarkers]
  | cons l ls ih =>
    by_cases he : emp.isPrefixOf l <;> simp [findMarkers, he, ih]

theorem findMarkers_fst_none (sm emp : List Char) (ls : List (List Char)) (i : Nat) :
    (findMarkers sm emp ls i none).1
      = (List.findIdx? (fun l => sm.isPrefixOf l) (ls.take (firstEndBound emp ls))).map
          (fun k => k + i + 1) := by
  induction ls generalizing i with
  | nil => simp [findMarkers, firstEndBound]
  | cons l ls ih =>
    by_cases he : emp.isPrefixOf l
    · have hb : firstEndBound emp (l :: ls) = 1 := by
        simp [firstEndBound, List.findIdx?_cons, he]
      rw [hb]
      by_cases hs : sm.isPrefixOf l <;>
        simp [findMarkers, he, hs, List.findIdx?_cons]
    · have hb : firstEndBound emp (l :: ls) = firstEndBound emp ls + 1 := by
        simp only [firstEndBound, List.findIdx?_cons, he, if_false, Bool.false_eq_true]
        rw [List.findIdx?_succ]
        cases List.findIdx? (fun l => emp.isPrefixOf l) ls <;> simp
      rw [hb, List.take_succ_cons, List.findIdx?_cons]
      by_cases hs : sm.isPrefixOf l
      · simp [findMarkers, he, hs, findMarkers_fst_some]
      · simp only [findMarkers, he, hs, if_false, Bool.false_eq_true, Option.isNone_none,
          true_and, if_neg]
        rw [ih, List.findIdx?_succ]
        cases List.findIdx? (fun l => sm.isPrefixOf l) (ls.take (firstEndBound emp ls)) with
        | none => simp
        | some k => simp; omega

/-- C2: the extracted output is exactly the lines strictly between the
first line starting with the start sentinel and the first line starting
with the end-sentinel text, both boundary lines excluded, joined with
newlines; whenever either boundary is missing or the start boundary does
not lie strictly before the end boundary, the extracted output is empty. -/
theorem extract_output_spec (content sm emp : List Char) :
    extract_output content sm emp =
      match List.findIdx? (fun l => sm.isPrefixOf l) (rustLines content),
          List.findIdx? (fun l => emp.isPrefixOf l) (rustLines content) with
      | some s0, some e0 =>
        if s0 < e0 then
          List.intercalate ['\n'] (((rustLines content).drop (s0 + 1)).take (e0 - (s0 + 1)))
        else []
      | _, _ => [] := by
  simp only [extract_output]
  generalize rustLines content = lines
  have h1 := findMarkers_fst_none sm emp lines 0
  have h2 := findMarkers_snd sm emp lines 0 none
  rcases hFE : findMarkers sm emp lines 0 none with ⟨F, E⟩
  rw [hFE] at h1 h2
  simp only at h1 h2
  cases he : List.findIdx? (fun l => emp.isPrefixOf l) lines with
  | none =>
    rw [he] at h2
    simp only [Option.map_none'] at h2
    subst h2
    cases hs : List.findIdx? (fun l => sm.isPrefixOf l) lines <;> cases F <;> simp [he, hs]
  | some e0 =>
    rw [he] at h2
    simp only [Option.map_some'] at h2
    rw [Nat.add_zero] at h2
    subst h2
    have hb : firstEndBound emp lines = e0 + 1 := by simp [firstEndBound, he]
    rw [hb, findIdx?_take] at h1
    cases hs : List.findIdx? (fun l => sm.isPrefixOf l) lines with
    | none =>
      rw [hs] at h1
      simp only at h1
      simp only [Option.map_none'] at h1
      subst h1
      simp [he, hs]
    | some s0 =>
      rw [hs] at h1
      simp only at h1
      by_cases hlt : s0 < e0 + 1
      · rw [if_pos hlt] at h1
        simp only [Option.map_some'] at h1
        subst h1
        by_cases hgap : s0 + 1 < e0
        · simp [he, hs, hgap, show s0 < e0 by omega]
        · by_cases hadj : s0 < e0
          · have hz : e0 - (s0 + 1) = 0 := by omega
            simp [he, hs, hgap, hadj, hz, List.intercalate]
          · simp [he, hs, hgap, hadj]
      · rw [if_neg hlt] at h1
        simp only [Option.map_none'] at h1
        subst h1
        simp [he, hs, show ¬ (s0 < e0) by omega]

theorem replaceChar_append (p : Char) (rep a b : List Char) :
    replaceChar p rep (a ++ b) = replaceChar p rep a ++ replaceChar p rep b := by
  induction a with
  | nil => simp [replaceChar]
  | cons c s ih => simp [replaceChar, ih]

theorem dq_escape_body_append (a b : List Char) :
    dq_escape_body (a ++ b) = dq_escape_body a ++ dq_escape_body b := by
  simp [dq_escape_body, replaceChar_append]

theorem dq_escape_body_cons (c : Char) (s : List Char) :
    dq_escape_body (c :: s) = dqBlock c ++ dq_escape_body s := by
  rw [← List.singleton_append, dq_escape_body_append]
  congr 1
  by_cases h1 : c = '\\'
  · subst h1; rfl
  by_cases h2 : c = '$'
  · subst h2; rfl
  by_cases h3 : c = btickChar
  · subst h3; rfl
  by_cases h4 : c = '"'
  · subst h4; rfl
  by_cases h5 : c = '!'
  · subst h5; rfl
  simp [dq_escape_body, replaceChar, dqBlock, h1, h2, h3, h4, h5]

theorem shellParse_dq_run (qm : List Char) (s : List Char) :
    ∀ rest wrev cws cmds,
      shellParse qm .dquote wrev true cws cmds (dq_escape_body s ++ '"' :: rest)
        = shellParse qm .norm
            ((replaceChar '!' (str "\\!") s).reverse ++ wrev) true cws cmds rest := by
  have hbang : str "\\!" = ['\\', '!'] := rfl
  induction s with
  | nil =>
    intro rest wrev cws cmds
    simp [dq_escape_body, replaceChar, shellParse]
  | cons c s ih =>
    intro rest wrev cws cmds
    rw [dq_escape_body_cons, List.append_assoc]
    by_cases h1 : c = '\\'
    · subst h1
      simp [dqBlock, shellParse, ih, replaceChar, btickChar, hbang]
    by_cases h2 : c = '$'
    · subst h2
      simp [dqBlock, shellParse, ih, replaceChar, btickChar, hbang]
    by_cases h3 : c = btickChar
    · subst h3
      simp [dqBlock, shellParse, ih, replaceChar, btickChar, hbang]
    by_cases h4 : c = '"'
    · subst h4
      simp [dqBlock, shellParse, ih, replaceChar, btickChar, hbang]
    by_cases h5 : c = '!'
    · subst h5
      simp [dqBlock, shellParse, ih, replaceChar, btickChar, hbang]
    · simp [dqBlock, shellParse, ih, replaceChar, h1, h2, h3, h4, h5, hbang]

theorem pstep_norm_space (qm : List Char) (wrev : List Char) (ws : Bool) (cws : List (List Char))
    (cmds : List (List (List Char))) (rest : List Char) :
    shellParse qm .norm wrev ws cws cmds (' ' :: rest)
      = shellParse qm .norm [] false (flushWord wrev ws cws) cmds rest := by
  simp [shellParse]

theorem pstep_norm_semi (qm : List Char) (wrev : List Char) (ws : Bool) (cws : List (List Char))
    (cmds : List (List (List Char))) (rest : List Char) (h : flushWord wrev ws cws ≠ []) :
    shellParse qm .norm wrev ws cws cmds (';' :: rest)
      = shellParse qm .norm [] false [] ((flushWord wrev ws cws).reverse :: cmds) rest := by
  simp [shellParse, h]

theorem pstep_norm_sq (qm : List Char) (wrev : List Char) (ws : Bool) (cws : List (List Char))
    (cmds : List (List (List Char))) (rest : List Char) :
    shellParse qm .norm wrev ws cws cmds (sqc :: rest)
      = shellParse qm .squote wrev true cws cmds rest := by
  simp [shellParse, show ¬(sqc = ' ' ∨ sqc = '\t') by decide, show sqc ≠ ';' by decide]

theorem pstep_norm_dq (qm : List Char) (wrev : List Char) (ws : Bool) (cws : List (List Char))
    (cmds : List (List (List Char))) (rest : List Char) :
    shellParse qm .norm wrev ws cws cmds ('"' :: rest)
      = shellParse qm .dquote wrev true cws cmds rest := by
  simp [shellParse, show ('"' : Char) ≠ sqc by decide]

theorem pstep_norm_bs (qm : List Char) (wrev : List Char) (ws : Bool) (cws : List (List Char))
    (cmds : List (List (List Char))) (rest : List Char) :
    shellParse qm .norm wrev ws cws cmds ('\\' :: rest)
      = shellParse qm .esc wrev ws cws cmds rest := by
  simp [shellParse, show ('\\' : Char) ≠ sqc by decide]

theorem pstep_esc (qm : List Char) (c : Char) (wrev : List Char) (ws : Bool)
    (cws : List (List Char)) (cmds : List (List (List Char))) (rest : List Char) (h : c ≠ '\n') :
    shellParse qm .esc wrev ws cws cmds (c :: rest)
      = shellParse qm .norm (c :: wrev) true cws cmds rest := by
  simp [shellParse, h]

theorem pstep_squote_exit (qm : List Char) (wrev : List Char) (ws : Bool)
    (cws : List (List Char)) (cmds : List (List (List Char))) (rest : List Char) :
    shellParse qm .squote wrev ws cws cmds (sqc :: rest)
      = shellParse qm .norm wrev ws cws cmds rest := by
  simp [shellParse]

theorem pstep_squote_lit (qm : List Char) (c : Char) (wrev : List Char) (ws : Bool)
    (cws : List (List Char)) (cmds : List (List (List Char))) (rest : List Char) (h : c ≠ sqc) :
    shellParse qm .squote wrev ws cws cmds (c :: rest)
      = shellParse qm .squote (c :: wrev) ws cws cmds rest := by
  simp [shellParse, h]

theorem shellParse_sq_lit (qm s : List Char) :
    ∀ rest wrev ws cws cmds, (∀ c ∈ s, c ≠ sqc) →
      shellParse qm .squote wrev ws cws cmds (s ++ rest)
        = shellParse qm .squote (s.reverse ++ wrev) ws cws cmds rest := by
  induction s with
  | nil => intros; simp
  | cons c s ih =>
    intro rest wrev ws cws cmds h
    have hc : c ≠ sqc := h c (by simp)
    have hs : ∀ x ∈ s, x ≠ sqc := fun x hx => h x (by simp [hx])
    rw [List.cons_append, pstep_squote_lit qm c wrev ws cws cmds _ hc,
      ih rest (c :: wrev) ws cws cmds hs]
    simp

theorem shellParse_sq_wrap (qm s : List Char) :
    ∀ rest wrev cws cmds,
      shellParse qm .squote wrev true cws cmds (squote_escaped s ++ sqc :: rest)
        = shellParse qm .norm (s.reverse ++ wrev) true cws cmds rest := by
  induction s with
  | nil => intros; simp [squote_escaped, replaceChar, pstep_squote_exit]
  | cons c s ih =>
    intro rest wrev cws cmds
    by_cases hc : c = sqc
    · subst hc
      have hb : squote_escaped (sqc :: s) ++ sqc :: rest
          = sqc :: '\\' :: sqc :: sqc :: (squote_escaped s ++ sqc :: rest) := by
        simp [squote_escaped, replaceChar]
      rw [hb, pstep_squote_exit, pstep_norm_bs,
        pstep_esc qm sqc wrev true cws cmds _ (by decide), pstep_norm_sq,
        ih rest (sqc :: wrev) cws cmds]
      simp
    · have hb : squote_escaped (c :: s) ++ sqc :: rest
          = c :: (squote_escaped s ++ sqc :: rest) := by
        simp [squote_escaped, replaceChar, hc]
      rw [hb, pstep_squote_lit qm c wrev true cws cmds _ hc, ih rest (c :: wrev) cws cmds]
      simp

theorem pstep_dquote_exit (qm : List Char) (wrev : List Char) (ws : Bool)
    (cws : List (List Char)) (cmds : List (List (List Char))) (rest : List Char) :
    shellParse qm .dquote wrev ws cws cmds ('"' :: rest)
      = shellParse qm .norm wrev ws cws cmds rest := by
  simp [shellParse]

theorem pstep_dquote_lit (qm : List Char) (c : Char) (wrev : List Char) (ws : Bool)
    (cws : List (List Char)) (cmds : List (List (List Char))) (rest : List Char)
    (h1 : c ≠ '"') (h2 : c ≠ '\\') (h3 : c ≠ '$') (h4 : c ≠ btickChar) :
    shellParse qm .dquote wrev ws cws cmds (c :: rest)
      = shellParse qm .dquote (c :: wrev) ws cws cmds rest := by
  simp [shellParse, h1, h2, h3, h4]

theorem pstep_dquote_qmark (qm : List Char) (wrev : List Char) (ws : Bool)
    (cws : List (List Char)) (cmds : List (List (List Char))) (rest : List Char) :
    shellParse qm .dquote wrev ws cws cmds ('$' :: '?' :: rest)
      = shellParse qm .dquote (qm.reverse ++ wrev) ws cws cmds rest := by
  simp [shellParse, show ('$' : Char) ≠ '"' by decide, show ('$' : Char) ≠ '\\' by decide]

theorem shellParse_dq_lit (qm s : List Char) :
    ∀ rest wrev ws cws cmds,
      (∀ c ∈ s, c ≠ '"' ∧ c ≠ '\\' ∧ c ≠ '$' ∧ c ≠ btickChar) →
      shellParse qm .dquote wrev ws cws cmds (s ++ rest)
        = shellParse qm .dquote (s.reverse ++ wrev) ws cws cmds rest := by
  induction s with
  | nil => intros; simp
  | cons c s ih =>
    intro rest wrev ws cws cmds h
    obtain ⟨h1, h2, h3, h4⟩ := h c (by simp)
    have hs : ∀ x ∈ s, x ≠ '"' ∧ x ≠ '\\' ∧ x ≠ '$' ∧ x ≠ btickChar :=
      fun x hx => h x (by simp [hx])
    rw [List.cons_append, pstep_dquote_lit qm c wrev ws cws cmds _ h1 h2 h3 h4,
      ih rest (c :: wrev) ws cws cmds hs]
    simp

theorem cmd_str_one (a : List Char) : cmd_str [a] = double_quote_escape a := by
  simp [cmd_str, List.intercalate, List.intersperse]

theorem cmd_str_cons (a : List Char) (l : List (List Char)) (h : l ≠ []) :
    cmd_str (a :: l) = double_quote_escape a ++ str " " ++ cmd_str l := by
  cases l with
  | nil => exact absurd rfl h
  | cons b bs => simp [cmd_str, List.intercalate, List.intersperse]

theorem shellParse_dqword (qm a : List Char) :
    ∀ rest wrev ws cws cmds,
      shellParse qm .norm wrev ws cws cmds (double_quote_escape a ++ rest)
        = shellParse qm .norm
            ((replaceChar '!' (str "\\!") a).reverse ++ wrev) true cws cmds rest := by
  intro rest wrev ws cws cmds
  have hsplit : double_quote_escape a ++ rest = '"' :: (dq_escape_body a ++ '"' :: rest) := by
    simp [double_quote_escape]
  rw [hsplit, pstep_norm_dq, shellParse_dq_run]

theorem shellParse_args (qm : List Char) (init : List (List Char)) :
    ∀ (alast : List Char) cws cmds rest,
      shellParse qm .norm [] false cws cmds (cmd_str (init ++ [alast]) ++ rest)
        = shellParse qm .norm ((replaceChar '!' (str "\\!") alast).reverse) true
            ((init.map (replaceChar '!' (str "\\!"))).reverse ++ cws) cmds rest := by
  induction init with
  | nil =>
    intro alast cws cmds rest
    rw [List.nil_append, cmd_str_one, shellParse_dqword]
    simp
  | cons a init ih =>
    intro alast cws cmds rest
    rw [show (a :: init) ++ [alast] = a :: (init ++ [alast]) from rfl,
      cmd_str_cons a (init ++ [alast]) (by simp), List.append_assoc, List.append_assoc,
      shellParse_dqword]
    rw [show str " " ++ (cmd_str (init ++ [alast]) ++ rest)
        = ' ' :: (cmd_str (init ++ [alast]) ++ rest) from rfl]
    rw [pstep_norm_space]
    rw [show flushWord ((replaceChar '!' (str "\\!") a).reverse ++ []) true cws
        = replaceChar '!' (str "\\!") a :: cws from by simp [flushWord]]
    rw [ih]
    simp

theorem pstep_norm_char (qm : List Char) (c : Char) (wrev : List Char) (ws : Bool)
    (cws : List (List Char)) (cmds : List (List (List Char))) (rest : List Char)
    (h : ¬(c = ' ' ∨ c = '\t') ∧ c ≠ ';' ∧ c ≠ sqc ∧ c ≠ '"' ∧ c ≠ '\\'
      ∧ shSpecialNorm c = false) :
    shellParse qm .norm wrev ws cws cmds (c :: rest)
      = shellParse qm .norm (c :: wrev) true cws cmds rest := by
  obtain ⟨h1, h2, h3, h4, h5, h6⟩ := h
  simp [shellParse, h1, h2, h3, h4, h5, h6]

theorem shellParse_build (qm : List Char) (command : List (List Char)) (marker_id : List Char) :
    shellParse qm .norm [] false [] [] (build_shell_command command marker_id)
      = some [[str "sh", str "-c", inner_script command marker_id]] := by
  have hb : build_shell_command command marker_id
      = 's' :: 'h' :: ' ' :: '-' :: 'c' :: ' ' :: sqc ::
          (squote_escaped (inner_script command marker_id) ++ sqc :: []) := rfl
  rw [hb,
    pstep_norm_char qm 's' _ _ _ _ _ (by decide),
    pstep_norm_char qm 'h' _ _ _ _ _ (by decide),
    pstep_norm_space,
    pstep_norm_char qm '-' _ _ _ _ _ (by decide),
    pstep_norm_char qm 'c' _ _ _ _ _ (by decide),
    pstep_norm_space,
    pstep_norm_sq,
    shellParse_sq_wrap]
  simp [shellParse, flushWord, str]

theorem shellParse_inner (qm : List Char) (init : List (List Char)) (alast marker_id : List Char)
    (hM : ∀ c ∈ marker_id, c.isAlphanum) :
    shellParse qm .norm [] false [] [] (inner_script (init ++ [alast]) marker_id)
      = some [[str "echo", str "___START_" ++ marker_id ++ str "___"],
              (init ++ [alast]).map (replaceChar '!' (str "\\!")),
              [str "echo", str "___END_" ++ marker_id ++ str "_" ++ qm ++ str "___"]] := by
  have hM1 : ∀ c ∈ marker_id, c ≠ sqc := by
    intro c hc he
    have ha := hM c hc
    rw [he] at ha
    exact absurd ha (by decide)
  have hM2 : ∀ c ∈ marker_id, c ≠ '"' ∧ c ≠ '\\' ∧ c ≠ '$' ∧ c ≠ btickChar := by
    intro c hc
    have ha := hM c hc
    refine ⟨?_, ?_, ?_, ?_⟩ <;> (intro he; rw [he] at ha; exact absurd ha (by decide))
  have e1 : str "echo " = ['e', 'c', 'h', 'o', ' '] := rfl
  have e2 : str "___START_" = ['_', '_', '_', 'S', 'T', 'A', 'R', 'T', '_'] := rfl
  have e3 : str "___" = ['_', '_', '_'] := rfl
  have e4 : str "; " = [';', ' '] := rfl
  have e5 : str "; echo \"___END_" =
      [';', ' ', 'e', 'c', 'h', 'o', ' ', '"', '_', '_', '_', 'E', 'N', 'D', '_'] := rfl
  have e6 : str "_$?___\"" = ['_', '$', '?', '_', '_', '_', '"'] := rfl
  have hform : inner_script (init ++ [alast]) marker_id
      = 'e' :: 'c' :: 'h' :: 'o' :: ' ' :: sqc ::
          '_' :: '_' :: '_' :: 'S' :: 'T' :: 'A' :: 'R' :: 'T' :: '_' ::
          (marker_id ++ ('_' :: '_' :: '_' :: sqc :: ';' :: ' ' ::
            (cmd_str (init ++ [alast]) ++ (';' :: ' ' :: 'e' :: 'c' :: 'h' :: 'o' :: ' ' :: '"' ::
              '_' :: '_' :: '_' :: 'E' :: 'N' :: 'D' :: '_' ::
              (marker_id ++ ['_', '$', '?', '_', '_', '_', '"']))))) := by
    simp only [inner_script, e1, e2, e3, e4, e5, e6, List.append_assoc, List.cons_append,
      List.nil_append]
  rw [hform,
    pstep_norm_char qm 'e' _ _ _ _ _ (by decide),
    pstep_norm_char qm 'c' _ _ _ _ _ (by decide),
    pstep_norm_char qm 'h' _ _ _ _ _ (by decide),
    pstep_norm_char qm 'o' _ _ _ _ _ (by decide),
    pstep_norm_space,
    pstep_norm_sq,
    pstep_squote_lit qm '_' _ _ _ _ _ (by decide),
    pstep_squote_lit qm '_' _ _ _ _ _ (by decide),
    pstep_squote_lit qm '_' _ _ _ _ _ (by decide),
    pstep_squote_lit qm 'S' _ _ _ _ _ (by decide),
    pstep_squote_lit qm 'T' _ _ _ _ _ (by decide),
    pstep_squote_lit qm 'A' _ _ _ _ _ (by decide),
    pstep_squote_lit qm 'R' _ _ _ _ _ (by decide),
    pstep_squote_lit qm 'T' _ _ _ _ _ (by decide),
    pstep_squote_lit qm '_' _ _ _ _ _ (by decide),
    shellParse_sq_lit qm marker_id _ _ _ _ _ hM1,
    pstep_squote_lit qm '_' _ _ _ _ _ (by decide),
    pstep_squote_lit qm '_' _ _ _ _ _ (by decide),
    pstep_squote_lit qm '_' _ _ _ _ _ (by decide),
    pstep_squote_exit,
    pstep_norm_semi _ _ _ _ _ _ (by simp [flushWord]),
    pstep_norm_space,
    shellParse_args,
    pstep_norm_semi _ _ _ _ _ _ (by simp [flushWord]),
    pstep_norm_space,
    pstep_norm_char qm 'e' _ _ _ _ _ (by decide),
    pstep_norm_char qm 'c' _ _ _ _ _ (by decide),
    pstep_norm_char qm 'h' _ _ _ _ _ (by decide),
    pstep_norm_char qm 'o' _ _ _ _ _ (by decide),
    pstep_norm_space,
    pstep_norm_dq,
    pstep_dquote_lit qm '_' _ _ _ _ _ (by decide) (by decide) (by decide) (by decide),
    pstep_dquote_lit qm '_' _ _ _ _ _ (by decide) (by decide) (by decide) (by decide),
    pstep_dquote_lit qm '_' _ _ _ _ _ (by decide) (by decide) (by decide) (by decide),
    pstep_dquote_lit qm 'E' _ _ _ _ _ (by decide) (by decide) (by decide) (by decide),
    pstep_dquote_lit qm 'N' _ _ _ _ _ (by decide) (by decide) (by decide) (by decide),
    pstep_dquote_lit qm 'D' _ _ _ _ _ (by decide) (by decide) (by decide) (by decide),
    pstep_dquote_lit qm '_' _ _ _ _ _ (by decide) (by decide) (by decide) (by decide),
    shellParse_dq_lit qm marker_id _ _ _ _ _ hM2,
    pstep_dquote_lit qm '_' _ _ _ _ _ (by decide) (by decide) (by decide) (by decide),
    pstep_dquote_qmark,
    pstep_dquote_lit qm '_' _ _ _ _ _ (by decide) (by decide) (by decide) (by decide),
    pstep_dquote_lit qm '_' _ _ _ _ _ (by decide) (by decide) (by decide) (by decide),
    pstep_dquote_lit qm '_' _ _ _ _ _ (by decide) (by decide) (by decide) (by decide),
    pstep_dquote_exit]
  simp [shellParse, flushWord, List.reverse_append, List.append_assoc, e2, e3, str]

theorem replaceChar_of_not_mem (p : Char) (rep a : List Char) (h : p ∉ a) :
    replaceChar p rep a = a := by
  induction a with
  | nil => rfl
  | cons c s ih =>
    have hc : ¬(c = p) := fun hcp => h (by simp [hcp])
    have hs : p ∉ s := fun hp => h (by simp [hp])
    simp [replaceChar, hc, ih hs]

/-- C4 counterexample: an argument containing `!` does not round-trip
through injection.  For the command `echo hi!`, the injected inner script
executes the target command with the literal argument `hi\!`: inside
POSIX double quotes a backslash is only removed before dollar, backtick,
double quote or backslash, so the backslash `double_quote_escape` places
before `!` is retained and the command prints `hi\!` where running it
directly prints `hi!`. -/
theorem quoting_bang_counterexample :
    shellParse (str "0") .norm [] false [] []
        (inner_script [str "echo", str "hi!"] (str "abcd1234"))
      = some [[str "echo", str "___START_abcd1234___"],
              [str "echo", str "hi\\!"],
              [str "echo", str "___END_abcd1234_0___"]]
      ∧ str "hi\\!" ≠ str "hi!" := by
  constructor
  · decide
  · decide

/-- C4 (amended): for every nonempty argument vector and alphanumeric
marker, the built line reaches the outer shell as exactly
`sh -c innerScript`, and the inner script executes as three commands: echo
the start sentinel, run the target command, echo the end sentinel carrying
the exit status.  Every argument reaches the target command verbatim
except that each `!` acquires a preceding backslash; in particular
arguments containing `$`, backtick, double quote, backslash or single
quote (and no `!`) are passed verbatim, with no word splitting or
expansion. -/
theorem quoting_safety_amended (qm : List Char) (init : List (List Char))
    (alast marker_id : List Char) (hM : ∀ c ∈ marker_id, c.isAlphanum) :
    shellParse qm .norm [] false [] [] (build_shell_command (init ++ [alast]) marker_id)
        = some [[str "sh", str "-c", inner_script (init ++ [alast]) marker_id]]
      ∧ shellParse qm .norm [] false [] [] (inner_script (init ++ [alast]) marker_id)
        = some [[str "echo", str "___START_" ++ marker_id ++ str "___"],
                (init ++ [alast]).map (replaceChar '!' (str "\\!")),
                [str "echo", str "___END_" ++ marker_id ++ str "_" ++ qm ++ str "___"]]
      ∧ (∀ a : List Char, '!' ∉ a → replaceChar '!' (str "\\!") a = a) :=
  ⟨shellParse_build qm _ _, shellParse_inner qm init alast marker_id hM,
    fun a ha => replaceChar_of_not_mem '!' (str "\\!") a ha⟩

/-- C4 witness: the amended quoting theorem applied to the concrete
command `printf a$b` with marker `m1m1m1m1` and exit status 0. -/
theorem quoting_safety_amended_witness :
    shellParse (str "0") .norm [] false [] []
        (build_shell_command ([str "printf"] ++ [str "a$b"]) (str "m1m1m1m1"))
        = some [[str "sh", str "-c", inner_script ([str "printf"] ++ [str "a$b"]) (str "m1m1m1m1")]]
      ∧ shellParse (str "0") .norm [] false [] []
          (inner_script ([str "printf"] ++ [str "a$b"]) (str "m1m1m1m1"))
        = some [[str "echo", str "___START_" ++ str "m1m1m1m1" ++ str "___"],
                ([str "printf"] ++ [str "a$b"]).map (replaceChar '!' (str "\\!")),
                [str "echo", str "___END_" ++ str "m1m1m1m1" ++ str "_" ++ str "0" ++ str "___"]]
      ∧ (∀ a : List Char, '!' ∉ a → replaceChar '!' (str "\\!") a = a) :=
  quoting_safety_amended (str "0") [str "printf"] (str "a$b") (str "m1m1m1m1") (by decide)
